import Mathlib

/-!
Verification of the 2.5D patch-convolution component and the notebook
utilities of the `nd320-c3-3d-med-imaging` convolutions exercise.

The repository's one source file is a Jupyter notebook
(`exercises/1-convolutions/starter/Convolutions.ipynb`).  The notebook
describes, but deliberately leaves unimplemented, the 2.5D patch
convolver (`PatchConvolver25D.compute`); that component is modelled here
from the specification.  The notebook's own helper code
(`display_volume_slices`, the grayscale normalisation of the walrus
image) is embedded directly from the notebook cells.

Real-valued samples are modelled as rationals, so all numeric laws are
exact (in particular stronger than the 1e-6 floating-point tolerance the
specification allows).
-/

/-- Modelled from the spec: an n-dimensional real array (numpy ndarray),
given by its shape and an indexing function.  The spec's `compute`
contract needs arrays of unknown rank, since it must reject a `volume`
with fewer than 3 dimensions and a `kernel` with fewer than 2. -/
structure NDArr where
  shape : List ℕ
  val : List ℕ → ℚ

/-- Size of axis `i` of an array (0 when the axis does not exist). -/
def NDArr.dim (a : NDArr) (i : ℕ) : ℕ :=
  a.shape.getD i 0

/-- Modelled from the spec: the two error kinds of §7 — `InvalidShapeError`
for dimension mismatches between volume, kernel and patch size, and
`InvalidParameterError` for non-positive `stride` or `patch_size`. -/
inductive ConvError where
  | InvalidShapeError
  | InvalidParameterError
deriving DecidableEq

/-- Modelled from the spec: the axial (constant-z) cardinal section of the
cubic patch of side `P` whose lower corner is `(bx, b1, bz)`:
`patch[:, :, P//2]`. -/
def axialSec (volume : NDArr) (P bx b1 bz : ℕ) : ℕ → ℕ → ℚ :=
  fun u v => volume.val [bx + u, b1 + v, bz + P / 2]

/-- Modelled from the spec: the sagittal (constant-x) cardinal section:
`patch[P//2, :, :]`. -/
def sagittalSec (volume : NDArr) (P bx b1 bz : ℕ) : ℕ → ℕ → ℚ :=
  fun u v => volume.val [bx + P / 2, b1 + u, bz + v]

/-- Modelled from the spec: the coronal (constant-y) cardinal section:
`patch[:, P//2, :]`. -/
def coronalSec (volume : NDArr) (P bx b1 bz : ℕ) : ℕ → ℕ → ℚ :=
  fun u v => volume.val [bx + u, b1 + P / 2, bz + v]

/-- Modelled from the spec: apply the 2D kernel once as a dot-product
centered at the section's center `(P//2, P//2)` (the even-size centering
convention of §9: center index `P//2`, kernel anchor `kh//2, kw//2`). -/
def centeredDot (sec : ℕ → ℕ → ℚ) (P : ℕ) (ker : NDArr) : ℚ :=
  ((List.range (ker.dim 0)).map fun a =>
    ((List.range (ker.dim 1)).map fun b =>
      sec (P / 2 - ker.dim 0 / 2 + a) (P / 2 - ker.dim 1 / 2 + b) * ker.val [a, b]).sum).sum

/-- Modelled from the spec: the full valid-mode 2D cross-correlation of a
`P × P` section with a `kh × kw` kernel, producing the
`(P − kh + 1) × (P − kw + 1)` response map (no kernel flip). -/
def corrMapFull (sec : ℕ → ℕ → ℚ) (P : ℕ) (ker : NDArr) : List (List ℚ) :=
  (List.range (P - ker.dim 0 + 1)).map fun r =>
    (List.range (P - ker.dim 1 + 1)).map fun c =>
      ((List.range (ker.dim 0)).map fun a =>
        ((List.range (ker.dim 1)).map fun b =>
          sec (r + a) (c + b) * ker.val [a, b]).sum).sum

/-- Modelled from the spec: the single center value of the full valid-mode
correlation map — the entry whose alignment puts the kernel centered on the
section's own center, i.e. map index `(P//2 − kh//2, P//2 − kw//2)`. -/
def corrCenter (sec : ℕ → ℕ → ℚ) (P : ℕ) (ker : NDArr) : ℚ :=
  ((corrMapFull sec P ker).getD (P / 2 - ker.dim 0 / 2) []).getD (P / 2 - ker.dim 1 / 2) 0

/-- Modelled from the spec: the scalar response at sampled output index
`(i, j, k)`: bias plus the sum over the three cardinal-section channels
(axial, sagittal, coronal) of the centered kernel application, the patch
base being `(i·S, j·S, k·S)`. -/
def responseAt (volume kernel : NDArr) (P : ℕ) (bias : ℚ) (S i j k : ℕ) : ℚ :=
  bias + centeredDot (axialSec volume P (i * S) (j * S) (k * S)) P kernel
       + centeredDot (sagittalSec volume P (i * S) (j * S) (k * S)) P kernel
       + centeredDot (coronalSec volume P (i * S) (j * S) (k * S)) P kernel

/-- Modelled from the spec: `PatchConvolver25D.compute`, the 2.5D patch
convolution that the notebook's extra-credit exercise describes but leaves
unimplemented.  Validation fails fast: non-positive `stride`/`patch_size`
raise `InvalidParameterError`; rank and size mismatches raise
`InvalidShapeError`.  Valid-only sampling: output axis length is
`(D − P)/S + 1`, and the response at `(i,j,k)` is `responseAt`.  The
`spacing` argument is accepted (display-time aspect correction is the
visualizer's concern) and never used. -/
def PatchConvolver25D.compute (volume : NDArr) (spacing : List ℚ) (kernel : NDArr)
    (patch_size : ℕ) (bias : ℚ) (stride : ℕ) :
    Except ConvError (List (List (List ℚ))) :=
  if stride < 1 ∨ patch_size < 1 then
    .error .InvalidParameterError
  else if volume.shape.length < 3 ∨ kernel.shape.length < 2 then
    .error .InvalidShapeError
  else if volume.dim 0 < patch_size ∨ volume.dim 1 < patch_size ∨ volume.dim 2 < patch_size
      ∨ patch_size < kernel.dim 0 ∨ patch_size < kernel.dim 1 then
    .error .InvalidShapeError
  else
    .ok ((List.range ((volume.dim 0 - patch_size) / stride + 1)).map fun i =>
      (List.range ((volume.dim 1 - patch_size) / stride + 1)).map fun j =>
        (List.range ((volume.dim 2 - patch_size) / stride + 1)).map fun k =>
          responseAt volume kernel patch_size bias stride i j k)

deriving instance DecidableEq for Except

/-- Element of a nested output list at index `(i, j, k)`. -/
def entry3 (out : List (List (List ℚ))) (i j k : ℕ) : ℚ :=
  ((out.getD i []).getD j []).getD k 0

/-- The notebook's 4×4 edge kernel: `np.ones((4,4))` with rows 2–3 set
to −1 (rows 0–1 are +1, rows 2–3 are −1). -/
def conv_kernel : NDArr :=
  { shape := [4, 4], val := fun idx => if idx.getD 0 0 < 2 then 1 else -1 }

/-- A 20×20×20 volume filled with value 1 everywhere. -/
def onesVol20 : NDArr :=
  { shape := [20, 20, 20], val := fun _ => 1 }

/-- A 1×1 kernel whose single entry is 1. -/
def oneByOneKernel : NDArr :=
  { shape := [1, 1], val := fun _ => 1 }

/- ## Embeddings of the notebook's own code -/

/-- One grid cell produced by `display_volume_slices`: the subplot at grid
position `(px, py)`, with the slice index shown in its title, the slice
image drawn into it (if any), and whether its axis was turned off. -/
structure Cell where
  px : ℕ
  py : ℕ
  title : Option ℕ
  image : Option (List (List ℚ))
  axisOff : Bool
deriving DecidableEq

/-- A blank grid cell, used as the out-of-range default for `List.getD`. -/
def blankCell : Cell :=
  { px := 0, py := 0, title := none, image := none, axisOff := false }

/-- Embedding of the notebook's `display_volume_slices(img, w, h)`:
for `i` in `range(w*h)` it computes `plt_x = i % w`, `plt_y = i // w`;
if `i < len(img)` it sets the title to slice `i` and draws `img[i]`;
in every cell it turns the axis off. -/
def display_volume_slices (img : List (List (List ℚ))) (w h : ℕ) : List Cell :=
  (List.range (w * h)).map fun i =>
    if i < img.length then
      { px := i % w, py := i / w, title := some i, image := some (img.getD i []), axisOff := true }
    else
      { px := i % w, py := i / w, title := none, image := none, axisOff := true }

/-- Embedding of the notebook's per-pixel grayscale normalisation:
`walrus.astype(np.single)/0xff` maps the 8-bit value `p` to `p / 255`. -/
def normPixel (p : ℕ) : ℚ :=
  (p : ℚ) / 255

/-- Embedding of the notebook's grayscale conversion + normalisation over a
whole 2D image array. -/
def normalizeGray (img : List (List ℕ)) : List (List ℚ) :=
  img.map fun row => row.map normPixel

/- ## Helper lemmas -/

/-- `getD` on a mapped range hits the function when the index is in range. -/
theorem getD_map_range {α : Type} (f : ℕ → α) (d : α) {n i : ℕ} (h : i < n) :
    ((List.range n).map f).getD i d = f i := by
  rw [List.getD_eq_getElem?_getD]
  simp [List.getElem?_map, List.getElem?_range h]

/-- Under valid parameters and shapes, `compute` succeeds and returns the
nested map of responses. -/
theorem compute_ok (volume : NDArr) (spacing : List ℚ) (kernel : NDArr)
    (P : ℕ) (bias : ℚ) (S X Y Z kh kw : ℕ)
    (hv : volume.shape = [X, Y, Z]) (hk : kernel.shape = [kh, kw])
    (hS : 1 ≤ S) (hP : 1 ≤ P)
    (hX : P ≤ X) (hY : P ≤ Y) (hZ : P ≤ Z) (hkh : kh ≤ P) (hkw : kw ≤ P) :
    PatchConvolver25D.compute volume spacing kernel P bias S =
      .ok ((List.range ((X - P) / S + 1)).map fun i =>
        (List.range ((Y - P) / S + 1)).map fun j =>
          (List.range ((Z - P) / S + 1)).map fun k =>
            responseAt volume kernel P bias S i j k) := by
  have hd0 : volume.dim 0 = X := by simp [NDArr.dim, hv]
  have hd1 : volume.dim 1 = Y := by simp [NDArr.dim, hv]
  have hd2 : volume.dim 2 = Z := by simp [NDArr.dim, hv]
  have hk0 : kernel.dim 0 = kh := by simp [NDArr.dim, hk]
  have hk1 : kernel.dim 1 = kw := by simp [NDArr.dim, hk]
  unfold PatchConvolver25D.compute
  rw [if_neg (by omega), if_neg (by simp [hv, hk]),
    if_neg (by rw [hd0, hd1, hd2, hk0, hk1]; omega), hd0, hd1, hd2]

/-- On the all-ones 20×20×20 volume, the edge kernel's centered response is
zero at every sampled location (the kernel's entries sum to zero). -/
theorem responseAt_onesVol20 (i j k : ℕ) :
    responseAt onesVol20 conv_kernel 16 0 1 i j k = 0 := by
  norm_num [responseAt, centeredDot, axialSec, sagittalSec, coronalSec,
    onesVol20, conv_kernel, NDArr.dim, List.range_succ]

/-- The full-correlation center index is inside the valid correlation map. -/
theorem center_index_lt (P kh : ℕ) (h : kh ≤ P) :
    P / 2 - kh / 2 < P - kh + 1 := by
  omega

/-- Extracting the center of the full valid correlation map equals the single
centered dot-product, for any section. -/
theorem corrCenter_eq_centeredDot (sec : ℕ → ℕ → ℚ) (P : ℕ) (ker : NDArr)
    (h0 : ker.dim 0 ≤ P) (h1 : ker.dim 1 ≤ P) :
    corrCenter sec P ker = centeredDot sec P ker := by
  have e1 : (corrMapFull sec P ker).getD (P / 2 - ker.dim 0 / 2) [] =
      (List.range (P - ker.dim 1 + 1)).map fun c =>
        ((List.range (ker.dim 0)).map fun a =>
          ((List.range (ker.dim 1)).map fun b =>
            sec (P / 2 - ker.dim 0 / 2 + a) (c + b) * ker.val [a, b]).sum).sum := by
    unfold corrMapFull
    exact getD_map_range _ _ (center_index_lt P (ker.dim 0) h0)
  have e2 : ((List.range (P - ker.dim 1 + 1)).map fun c =>
      ((List.range (ker.dim 0)).map fun a =>
        ((List.range (ker.dim 1)).map fun b =>
          sec (P / 2 - ker.dim 0 / 2 + a) (c + b) * ker.val [a, b]).sum).sum).getD
        (P / 2 - ker.dim 1 / 2) 0 =
      ((List.range (ker.dim 0)).map fun a =>
        ((List.range (ker.dim 1)).map fun b =>
          sec (P / 2 - ker.dim 0 / 2 + a) (P / 2 - ker.dim 1 / 2 + b) * ker.val [a, b]).sum).sum :=
    getD_map_range _ _ (center_index_lt P (ker.dim 1) h1)
  unfold corrCenter centeredDot
  rw [e1, e2]

/-- C1: for every volume of shape (X, Y, Z) with each dimension at least the
patch size P ≥ 1, and every stride S ≥ 1 (with a kernel fitting in the patch),
`PatchConvolver25D.compute` succeeds, and the response volume's shape along
each axis is ⌊(D − P)/S⌋ + 1 for the corresponding input dimension D; sampling
is valid-only: every sampled patch (base i·S, side P) fits fully inside the
volume, so no implicit zero-padding occurs. -/
theorem c1_shape_law (volume : NDArr) (spacing : List ℚ) (kernel : NDArr)
    (P : ℕ) (bias : ℚ) (S X Y Z kh kw : ℕ)
    (hv : volume.shape = [X, Y, Z]) (hk : kernel.shape = [kh, kw])
    (hS : 1 ≤ S) (hP : 1 ≤ P)
    (hX : P ≤ X) (hY : P ≤ Y) (hZ : P ≤ Z) (hkh : kh ≤ P) (hkw : kw ≤ P) :
    ∃ out, PatchConvolver25D.compute volume spacing kernel P bias S = Except.ok out ∧
      out.length = (X - P) / S + 1 ∧
      (∀ plane ∈ out, plane.length = (Y - P) / S + 1 ∧
        ∀ row ∈ plane, row.length = (Z - P) / S + 1) ∧
      (∀ i < (X - P) / S + 1, i * S + P ≤ X) ∧
      (∀ j < (Y - P) / S + 1, j * S + P ≤ Y) ∧
      (∀ k < (Z - P) / S + 1, k * S + P ≤ Z) := by
  refine ⟨_, compute_ok volume spacing kernel P bias S X Y Z kh kw
    hv hk hS hP hX hY hZ hkh hkw, by simp, ?_, ?_, ?_, ?_⟩
  · intro plane hplane
    simp only [List.mem_map, List.mem_range] at hplane
    obtain ⟨i, -, rfl⟩ := hplane
    refine ⟨by simp, ?_⟩
    intro row hrow
    simp only [List.mem_map, List.mem_range] at hrow
    obtain ⟨j, -, rfl⟩ := hrow
    simp
  · intro i hi
    have h1 : i ≤ (X - P) / S := by omega
    have h2 : i * S ≤ ((X - P) / S) * S := Nat.mul_le_mul_right S h1
    have h3 : ((X - P) / S) * S ≤ X - P := Nat.div_mul_le_self _ _
    omega
  · intro j hj
    have h1 : j ≤ (Y - P) / S := by omega
    have h2 : j * S ≤ ((Y - P) / S) * S := Nat.mul_le_mul_right S h1
    have h3 : ((Y - P) / S) * S ≤ Y - P := Nat.div_mul_le_self _ _
    omega
  · intro k hk2
    have h1 : k ≤ (Z - P) / S := by omega
    have h2 : k * S ≤ ((Z - P) / S) * S := Nat.mul_le_mul_right S h1
    have h3 : ((Z - P) / S) * S ≤ Z - P := Nat.div_mul_le_self _ _
    omega

/-- Witness for C1 at the concrete input of the notebook's scenario. -/
theorem c1_shape_law_witness :
    ∃ out, PatchConvolver25D.compute onesVol20 [1, 1, 1] conv_kernel 16 0 1 = Except.ok out ∧
      out.length = (20 - 16) / 1 + 1 ∧
      (∀ plane ∈ out, plane.length = (20 - 16) / 1 + 1 ∧
        ∀ row ∈ plane, row.length = (20 - 16) / 1 + 1) ∧
      (∀ i < (20 - 16) / 1 + 1, i * 1 + 16 ≤ 20) ∧
      (∀ j < (20 - 16) / 1 + 1, j * 1 + 16 ≤ 20) ∧
      (∀ k < (20 - 16) / 1 + 1, k * 1 + 16 ≤ 20) :=
  c1_shape_law onesVol20 [1, 1, 1] conv_kernel 16 0 1 20 20 20 4 4 rfl rfl
    (by decide) (by decide) (by decide) (by decide) (by decide) (by decide) (by decide)

/-- C2: for every P×P cardinal section (axial, sagittal, coronal) and every
kh×kw kernel with kh, kw ≤ P, computing the full valid-mode 2D
cross-correlation map and extracting its single center value equals applying
the kernel once as a dot-product centered at the section's center.  Over the
exact rational model the two formulations are identical, hence in particular
within the spec's 1e-6 floating-point tolerance. -/
theorem c2_center_equivalence (volume : NDArr) (ker : NDArr) (P bx b1 bz : ℕ)
    (h0 : ker.dim 0 ≤ P) (h1 : ker.dim 1 ≤ P) :
    corrCenter (axialSec volume P bx b1 bz) P ker =
      centeredDot (axialSec volume P bx b1 bz) P ker ∧
    corrCenter (sagittalSec volume P bx b1 bz) P ker =
      centeredDot (sagittalSec volume P bx b1 bz) P ker ∧
    corrCenter (coronalSec volume P bx b1 bz) P ker =
      centeredDot (coronalSec volume P bx b1 bz) P ker :=
  ⟨corrCenter_eq_centeredDot _ P ker h0 h1,
   corrCenter_eq_centeredDot _ P ker h0 h1,
   corrCenter_eq_centeredDot _ P ker h0 h1⟩

/-- Witness for C2 at a concrete section/kernel pair. -/
theorem c2_center_equivalence_witness :
    corrCenter (axialSec onesVol20 16 0 0 0) 16 conv_kernel =
      centeredDot (axialSec onesVol20 16 0 0 0) 16 conv_kernel ∧
    corrCenter (sagittalSec onesVol20 16 0 0 0) 16 conv_kernel =
      centeredDot (sagittalSec onesVol20 16 0 0 0) 16 conv_kernel ∧
    corrCenter (coronalSec onesVol20 16 0 0 0) 16 conv_kernel =
      centeredDot (coronalSec onesVol20 16 0 0 0) 16 conv_kernel :=
  c2_center_equivalence onesVol20 conv_kernel 16 0 0 0 (by decide) (by decide)

/-- C3: on the 20×20×20 all-ones volume, with the notebook's 4×4 edge kernel
(rows 0–1 = +1, rows 2–3 = −1), patch_size 16, stride 1 and bias 0, `compute`
returns the 5×5×5 response volume in which every element equals 0. -/
theorem c3_concrete_scenario :
    PatchConvolver25D.compute onesVol20 [1, 1, 1] conv_kernel 16 0 1 =
      Except.ok (List.replicate 5 (List.replicate 5 (List.replicate 5 (0 : ℚ)))) := by
  rw [compute_ok onesVol20 [1, 1, 1] conv_kernel 16 0 1 20 20 20 4 4 rfl rfl
    (by decide) (by decide) (by decide) (by decide) (by decide) (by decide) (by decide)]
  have h5 : (20 - 16) / 1 + 1 = 5 := by decide
  simp only [h5]
  refine congrArg Except.ok ?_
  refine List.eq_replicate_iff.mpr ⟨by simp, ?_⟩
  intro plane hplane
  simp only [List.mem_map, List.mem_range] at hplane
  obtain ⟨i, -, rfl⟩ := hplane
  refine List.eq_replicate_iff.mpr ⟨by simp, ?_⟩
  intro row hrow
  simp only [List.mem_map, List.mem_range] at hrow
  obtain ⟨j, -, rfl⟩ := hrow
  refine List.eq_replicate_iff.mpr ⟨by simp, ?_⟩
  intro q hq
  simp only [List.mem_map, List.mem_range] at hq
  obtain ⟨k, -, rfl⟩ := hq
  exact responseAt_onesVol20 i j k

/-- C4: with the 1×1 kernel whose single entry is 1, the response at each
sampled output index equals the sum of the three cardinal sections' center
pixels plus bias; since all three sections pass through the same center
voxel, that is 3 × the volume intensity at the sampled center plus bias. -/
theorem c4_identity_patch (volume : NDArr) (spacing : List ℚ) (kernel : NDArr)
    (P : ℕ) (bias : ℚ) (S X Y Z : ℕ)
    (hv : volume.shape = [X, Y, Z]) (hk : kernel.shape = [1, 1])
    (hone : kernel.val [0, 0] = 1)
    (hS : 1 ≤ S) (hP : 1 ≤ P) (hX : P ≤ X) (hY : P ≤ Y) (hZ : P ≤ Z) :
    ∃ out, PatchConvolver25D.compute volume spacing kernel P bias S = Except.ok out ∧
      ∀ i < (X - P) / S + 1, ∀ j < (Y - P) / S + 1, ∀ k < (Z - P) / S + 1,
        entry3 out i j k =
          3 * volume.val [i * S + P / 2, j * S + P / 2, k * S + P / 2] + bias := by
  refine ⟨_, compute_ok volume spacing kernel P bias S X Y Z 1 1
    hv hk hS hP hX hY hZ hP hP, ?_⟩
  intro i hi j hj k hk2
  have hd0 : kernel.dim 0 = 1 := by simp [NDArr.dim, hk]
  have hd1 : kernel.dim 1 = 1 := by simp [NDArr.dim, hk]
  have e1 : ((List.range ((X - P) / S + 1)).map fun i =>
      (List.range ((Y - P) / S + 1)).map fun j =>
        (List.range ((Z - P) / S + 1)).map fun k =>
          responseAt volume kernel P bias S i j k).getD i [] =
      (List.range ((Y - P) / S + 1)).map fun j =>
        (List.range ((Z - P) / S + 1)).map fun k =>
          responseAt volume kernel P bias S i j k :=
    getD_map_range _ _ hi
  have e2 : ((List.range ((Y - P) / S + 1)).map fun j =>
      (List.range ((Z - P) / S + 1)).map fun k =>
        responseAt volume kernel P bias S i j k).getD j [] =
      (List.range ((Z - P) / S + 1)).map fun k =>
        responseAt volume kernel P bias S i j k :=
    getD_map_range _ _ hj
  have e3 : ((List.range ((Z - P) / S + 1)).map fun k =>
      responseAt volume kernel P bias S i j k).getD k 0 =
      responseAt volume kernel P bias S i j k :=
    getD_map_range _ _ hk2
  unfold entry3
  rw [e1, e2, e3]
  norm_num [responseAt, centeredDot, axialSec, sagittalSec, coronalSec,
    hd0, hd1, hone, List.range_succ, List.range_zero]
  ring

/-- Witness for C4 at a concrete input. -/
theorem c4_identity_patch_witness :
    ∃ out, PatchConvolver25D.compute onesVol20 [1, 1, 1] oneByOneKernel 16 0 1 = Except.ok out ∧
      ∀ i < (20 - 16) / 1 + 1, ∀ j < (20 - 16) / 1 + 1, ∀ k < (20 - 16) / 1 + 1,
        entry3 out i j k =
          3 * onesVol20.val [i * 1 + 16 / 2, j * 1 + 16 / 2, k * 1 + 16 / 2] + 0 :=
  c4_identity_patch onesVol20 [1, 1, 1] oneByOneKernel 16 0 1 20 20 20 rfl rfl rfl
    (by decide) (by decide) (by decide) (by decide) (by decide)

/-- A 3×3 kernel all of whose entries are 0. -/
def zeroKernel : NDArr :=
  { shape := [3, 3], val := fun _ => 0 }

/-- The centered dot-product against an all-zero kernel is 0. -/
theorem centeredDot_zero_kernel (sec : ℕ → ℕ → ℚ) (P : ℕ) (ker : NDArr)
    (hzero : ∀ a b, ker.val [a, b] = 0) :
    centeredDot sec P ker = 0 := by
  unfold centeredDot
  refine List.sum_eq_zero ?_
  intro x hx
  simp only [List.mem_map, List.mem_range] at hx
  obtain ⟨a, -, rfl⟩ := hx
  refine List.sum_eq_zero ?_
  intro y hy
  simp only [List.mem_map, List.mem_range] at hy
  obtain ⟨b, -, rfl⟩ := hy
  rw [hzero, mul_zero]

/-- C5: with an all-zero kernel (and otherwise valid inputs), every element
of the response volume returned by `compute` equals the bias exactly. -/
theorem c5_zero_kernel (volume : NDArr) (spacing : List ℚ) (kernel : NDArr)
    (P : ℕ) (bias : ℚ) (S X Y Z kh kw : ℕ)
    (hv : volume.shape = [X, Y, Z]) (hk : kernel.shape = [kh, kw])
    (hzero : ∀ a b, kernel.val [a, b] = 0)
    (hS : 1 ≤ S) (hP : 1 ≤ P)
    (hX : P ≤ X) (hY : P ≤ Y) (hZ : P ≤ Z) (hkh : kh ≤ P) (hkw : kw ≤ P) :
    ∃ out, PatchConvolver25D.compute volume spacing kernel P bias S = Except.ok out ∧
      ∀ plane ∈ out, ∀ row ∈ plane, ∀ q ∈ row, q = bias := by
  refine ⟨_, compute_ok volume spacing kernel P bias S X Y Z kh kw
    hv hk hS hP hX hY hZ hkh hkw, ?_⟩
  intro plane hplane
  simp only [List.mem_map, List.mem_range] at hplane
  obtain ⟨i, -, rfl⟩ := hplane
  intro row hrow
  simp only [List.mem_map, List.mem_range] at hrow
  obtain ⟨j, -, rfl⟩ := hrow
  intro q hq
  simp only [List.mem_map, List.mem_range] at hq
  obtain ⟨k, -, rfl⟩ := hq
  unfold responseAt
  rw [centeredDot_zero_kernel _ _ _ hzero, centeredDot_zero_kernel _ _ _ hzero,
    centeredDot_zero_kernel _ _ _ hzero]
  ring

/-- Witness for C5 at a concrete input with bias 5. -/
theorem c5_zero_kernel_witness :
    ∃ out, PatchConvolver25D.compute onesVol20 [1, 1, 1] zeroKernel 16 5 1 = Except.ok out ∧
      ∀ plane ∈ out, ∀ row ∈ plane, ∀ q ∈ row, q = 5 :=
  c5_zero_kernel onesVol20 [1, 1, 1] zeroKernel 16 5 1 20 20 20 3 3 rfl rfl
    (fun _ _ => rfl) (by decide) (by decide) (by decide) (by decide) (by decide)
    (by decide) (by decide)

/-- C6: `compute` fails fast with no result — `InvalidParameterError` whenever
`stride` or `patch_size` is non-positive (this check comes first), and
`InvalidShapeError` whenever, with positive parameters, the volume has fewer
than 3 dimensions, the kernel fewer than 2, `patch_size` exceeds a volume
dimension, or a kernel dimension exceeds `patch_size`. -/
theorem c6_error_handling (volume : NDArr) (spacing : List ℚ) (kernel : NDArr)
    (P : ℕ) (bias : ℚ) (S : ℕ) :
    (S = 0 ∨ P = 0 →
      PatchConvolver25D.compute volume spacing kernel P bias S =
        Except.error ConvError.InvalidParameterError) ∧
    (1 ≤ S → 1 ≤ P →
      (volume.shape.length < 3 ∨ kernel.shape.length < 2 ∨
        volume.dim 0 < P ∨ volume.dim 1 < P ∨ volume.dim 2 < P ∨
        P < kernel.dim 0 ∨ P < kernel.dim 1) →
      PatchConvolver25D.compute volume spacing kernel P bias S =
        Except.error ConvError.InvalidShapeError) := by
  constructor
  · intro hbad
    unfold PatchConvolver25D.compute
    rw [if_pos (by omega)]
  · intro hS hP hbad
    unfold PatchConvolver25D.compute
    rw [if_neg (by omega)]
    by_cases h2 : volume.shape.length < 3 ∨ kernel.shape.length < 2
    · rw [if_pos h2]
    · rw [if_neg h2, if_pos (show volume.dim 0 < P ∨ volume.dim 1 < P ∨ volume.dim 2 < P ∨
        P < kernel.dim 0 ∨ P < kernel.dim 1 by omega)]

/-- Witness for C6: stride 0 raises `InvalidParameterError`; a patch size of
25 exceeding every 20-long volume dimension raises `InvalidShapeError`. -/
theorem c6_error_handling_witness :
    PatchConvolver25D.compute onesVol20 [1, 1, 1] conv_kernel 16 0 0 =
      Except.error ConvError.InvalidParameterError ∧
    PatchConvolver25D.compute onesVol20 [1, 1, 1] conv_kernel 25 0 1 =
      Except.error ConvError.InvalidShapeError :=
  ⟨(c6_error_handling onesVol20 [1, 1, 1] conv_kernel 16 0 0).1 (Or.inl rfl),
   (c6_error_handling onesVol20 [1, 1, 1] conv_kernel 25 0 1).2
     (by decide) (by decide) (by decide)⟩

/-- C7: `compute` is spacing-agnostic — for any two positive spacing vectors
it returns numerically identical (indeed definitionally equal) response
volumes, all other arguments kept fixed. -/
theorem c7_spacing_agnostic (volume : NDArr) (kernel : NDArr)
    (P : ℕ) (bias : ℚ) (S : ℕ) (s1 s2 : List ℚ)
    (h1 : ∀ q ∈ s1, 0 < q) (h2 : ∀ q ∈ s2, 0 < q) :
    PatchConvolver25D.compute volume s1 kernel P bias S =
      PatchConvolver25D.compute volume s2 kernel P bias S :=
  rfl

/-- Witness for C7 with spacings (1,1,1) and (2,2,3). -/
theorem c7_spacing_agnostic_witness :
    PatchConvolver25D.compute onesVol20 [1, 1, 1] conv_kernel 16 0 1 =
      PatchConvolver25D.compute onesVol20 [2, 2, 3] conv_kernel 16 0 1 :=
  c7_spacing_agnostic onesVol20 conv_kernel 16 0 1 [1, 1, 1] [2, 2, 3]
    (by norm_num) (by norm_num)

/-- C8: `compute` is a pure function of its inputs: its arguments are
immutable values of the model (nothing is mutated), and two calls on
identical inputs return bit-identical output. -/
theorem c8_determinism (volume : NDArr) (spacing : List ℚ) (kernel : NDArr)
    (P : ℕ) (bias : ℚ) (S : ℕ) :
    PatchConvolver25D.compute volume spacing kernel P bias S =
      PatchConvolver25D.compute volume spacing kernel P bias S :=
  rfl

/-- C9: for every slice list and positive grid dimensions, every grid cell of
`display_volume_slices` draws `img[i]` exactly when its index satisfies
`i < len(img)` (so `img` is never read out of bounds, even when `w*h` exceeds
the number of slices), the extra cells carry no title and no image, and every
cell has its axis turned off. -/
theorem c9_display_guard (img : List (List (List ℚ))) (w h : ℕ)
    (hw : 0 < w) (hh : 0 < h) :
    (display_volume_slices img w h).length = w * h ∧
    ∀ i < w * h,
      ((display_volume_slices img w h).getD i blankCell).image =
        (if i < img.length then some (img.getD i []) else none) ∧
      ((display_volume_slices img w h).getD i blankCell).title =
        (if i < img.length then some i else none) ∧
      ((display_volume_slices img w h).getD i blankCell).axisOff = true := by
  refine ⟨by simp [display_volume_slices], ?_⟩
  intro i hi
  unfold display_volume_slices
  rw [getD_map_range _ _ hi]
  by_cases hlen : i < img.length <;> simp [hlen]

/-- A concrete stack of three one-pixel slices. -/
def sampleImg : List (List (List ℚ)) :=
  [[[1]], [[2]], [[3]]]

/-- Witness for C9: a 2×2 grid over three slices (one cell left blank). -/
theorem c9_display_guard_witness :
    (display_volume_slices sampleImg 2 2).length = 2 * 2 ∧
    ∀ i < 2 * 2,
      ((display_volume_slices sampleImg 2 2).getD i blankCell).image =
        (if i < sampleImg.length then some (sampleImg.getD i []) else none) ∧
      ((display_volume_slices sampleImg 2 2).getD i blankCell).title =
        (if i < sampleImg.length then some i else none) ∧
      ((display_volume_slices sampleImg 2 2).getD i blankCell).axisOff = true :=
  c9_display_guard sampleImg 2 2 (by decide) (by decide)

/-- C10: the notebook's grayscale normalisation (cast to single precision and
divide by 0xff) maps every 8-bit pixel value into [0, 1], with 255 ↦ 1
exactly and 0 ↦ 0 exactly. -/
theorem c10_normalization (img : List (List ℕ))
    (hb : ∀ row ∈ img, ∀ p ∈ row, p ≤ 255) :
    (∀ row ∈ normalizeGray img, ∀ q ∈ row, 0 ≤ q ∧ q ≤ 1) ∧
    normPixel 255 = 1 ∧ normPixel 0 = 0 := by
  refine ⟨?_, by norm_num [normPixel], by norm_num [normPixel]⟩
  intro row hrow q hq
  simp only [normalizeGray, List.mem_map] at hrow
  obtain ⟨row0, hrow0, rfl⟩ := hrow
  simp only [List.mem_map] at hq
  obtain ⟨p, hp, rfl⟩ := hq
  have hple : p ≤ 255 := hb row0 hrow0 p hp
  constructor
  · unfold normPixel
    positivity
  · unfold normPixel
    rw [div_le_one (by norm_num)]
    exact_mod_cast hple

/-- A concrete 8-bit grayscale row with both endpoint values. -/
def sampleGray : List (List ℕ) :=
  [[0, 128, 255]]

/-- Witness for C10 on a concrete 8-bit image. -/
theorem c10_normalization_witness :
    (∀ row ∈ normalizeGray sampleGray, ∀ q ∈ row, 0 ≤ q ∧ q ≤ 1) ∧
    normPixel 255 = 1 ∧ normPixel 0 = 0 :=
  c10_normalization sampleGray (by decide)
